import Mathlib

set_option maxRecDepth 16384

/-!
Verification of the circular-buffer FIFO (`Src/cbfifo.c`) and the
interrupt-driven USART2 driver (`Src/usart.c`) of the STM32f091RC driver
repository, as a shallow embedding in Lean.

Modelling conventions:
* C machine integers become `Nat`, with `% 2^w`-style reductions made
  explicit where the C code truncates (the `(uint8_t)` casts).
* The byte array `uint8_t buffer[MAX_BUFFER_SIZE]` becomes a `List Nat`
  of length `MAX_BUFFER_SIZE`; `buffer[i] = d` becomes `List.set` and
  `buffer[i]` becomes `List.getD _ 0`.
* The triple `(buffer, *head, *tail)` threaded by pointer through
  `cbfifo_enqueue` / `cbfifo_dequeue` becomes the state record `CBState`,
  returned updated together with the C `int` status code.
* `cbfifo_dequeue`'s out-parameter `*data` plus its status code are fused
  into an `Option Nat`: `none` models return value 0 (buffer empty, no
  byte written), `some b` models return value 1 with `*data = b`.
* Interrupt interleavings are modelled at the granularity of whole
  enqueue / dequeue operations (sequences of `CBOp`).
-/

/-- `MAX_BUFFER_SIZE` from `Src/cbfifo.h`, line 17. -/
def MAX_BUFFER_SIZE : Nat := 128

/-- The state a circular buffer: the backing array together with the two
index cells that C passes by pointer (`buffer`, `*head`, `*tail`). -/
structure CBState where
  buf : List Nat
  head : Nat
  tail : Nat
deriving Repr, DecidableEq

/-- `cbfifo_enqueue` from `Src/cbfifo.c`: computes
`next = (*head + 1) % MAX_BUFFER_SIZE`; if `next == *tail` returns 0
without touching the state, otherwise stores `data` at `*head`, advances
`*head` to `next` and returns 1.  The returned `Nat` is the C `int`
status code. -/
def cbfifo_enqueue (s : CBState) (data : Nat) : CBState × Nat :=
  let next := (s.head + 1) % MAX_BUFFER_SIZE
  if next = s.tail then
    (s, 0)
  else
    ({ s with buf := s.buf.set s.head data, head := next }, 1)

/-- `cbfifo_dequeue` from `Src/cbfifo.c`: if `*head == *tail` returns 0
(modelled `none`) without touching the state; otherwise reads
`buffer[*tail]` into `*data`, advances `*tail` modulo `MAX_BUFFER_SIZE`
and returns 1 (modelled `some byte`). -/
def cbfifo_dequeue (s : CBState) : CBState × Option Nat :=
  if s.head = s.tail then
    (s, none)
  else
    ({ s with tail := (s.tail + 1) % MAX_BUFFER_SIZE }, some (s.buf.getD s.tail 0))

/-- The buffer state the C globals start in: a zeroed array with
`head = tail = 0`. -/
def emptyCB : CBState :=
  { buf := List.replicate MAX_BUFFER_SIZE 0, head := 0, tail := 0 }

/-- A full buffer (`(head + 1) % MAX_BUFFER_SIZE = tail`) used as a
concrete test state. -/
def fullCB : CBState :=
  { buf := List.replicate MAX_BUFFER_SIZE 0, head := MAX_BUFFER_SIZE - 1, tail := 0 }

/-- A buffer holding exactly one byte, 65, at index 0. -/
def oneCB : CBState :=
  { buf := (List.replicate MAX_BUFFER_SIZE 0).set 0 65, head := 1, tail := 0 }

/-- Structural invariant of the embedding: the backing list has the C
array's fixed length and both indices are in range. -/
def cbInv (s : CBState) : Prop :=
  s.buf.length = MAX_BUFFER_SIZE ∧ s.head < MAX_BUFFER_SIZE ∧ s.tail < MAX_BUFFER_SIZE

instance (s : CBState) : Decidable (cbInv s) := by
  unfold cbInv; infer_instance

/-- Number of occupied slots, `(head - tail) mod N` computed in `Nat`. -/
def cbCount (s : CBState) : Nat :=
  (s.head + MAX_BUFFER_SIZE - s.tail) % MAX_BUFFER_SIZE

/-- The `k` bytes stored starting at index `t`, reading circularly. -/
def queueFrom (buf : List Nat) : Nat → Nat → List Nat
  | _, 0 => []
  | t, k + 1 => buf.getD t 0 :: queueFrom buf ((t + 1) % MAX_BUFFER_SIZE) k

/-- Abstraction function: the queue contents of a buffer state, from
`tail` (oldest) to `head` (newest), as a list. -/
def queueOf (s : CBState) : List Nat :=
  queueFrom s.buf s.tail (cbCount s)

/-- One abstract operation on a circular buffer: an enqueue of a byte, or
a dequeue. -/
inductive CBOp where
  | enq (d : Nat)
  | deq
deriving Repr, DecidableEq

/-- Execute one operation, keeping only the state. -/
def cbStep (s : CBState) : CBOp → CBState
  | CBOp.enq d => (cbfifo_enqueue s d).1
  | CBOp.deq => (cbfifo_dequeue s).1

/-- Execute a sequence of operations, keeping only the state. -/
def cbRun (s : CBState) (ops : List CBOp) : CBState :=
  ops.foldl cbStep s

/-- Execute a sequence of operations collecting the trace: final state,
the list of bytes accepted by enqueues that returned 1 (in order), and
the list of bytes returned by successful dequeues (in order). -/
def cbTrace : List CBOp → CBState → CBState × List Nat × List Nat
  | [], s => (s, [], [])
  | CBOp.enq d :: ops, s =>
    let r := cbfifo_enqueue s d
    let rest := cbTrace ops r.1
    (rest.1, if r.2 = 1 then d :: rest.2.1 else rest.2.1, rest.2.2)
  | CBOp.deq :: ops, s =>
    let r := cbfifo_dequeue s
    let rest := cbTrace ops r.1
    (rest.1, rest.2.1,
      match r.2 with
      | some b => b :: rest.2.2
      | none => rest.2.2)

/-- Run `n` enqueues of the same byte, collecting the status codes. -/
def enqSeq (s : CBState) (d : Nat) : Nat → CBState × List Nat
  | 0 => (s, [])
  | n + 1 =>
    let r := cbfifo_enqueue s d
    let rest := enqSeq r.1 d n
    (rest.1, r.2 :: rest.2)

/-!
The USART2 driver of `Src/usart.c`.  The peripheral registers touched by
the I/O paths are modelled field by field: `CR1` and `CR2` as records of
the named bits the code reads or writes, `BRR` as a `Nat`.  The driver's
mutable state visible to the claims is the pair of circular buffers
(`rx_buffer`/`rx_head`/`rx_tail`, `tx_buffer`/`tx_head`/`tx_tail`) plus
the `USART_CR1_TXEIE` bit, which `__io_putchar` sets and the interrupt
handler clears.  Hardware inputs to the interrupt handler (the `RXNE`
and `TXE` flags of `ISR`, and the received data register `RDR`) are
passed as arguments; a write to `TDR` is modelled as the returned
`Option Nat`.
-/

/-- The bits of `USART2->CR1` that `USART2_Init`, `__io_putchar` and
`USART2_IRQHandler` read or write. -/
structure CR1Reg where
  ue : Bool
  te : Bool
  pce : Bool
  ps : Bool
  m0 : Bool
  m1 : Bool
  over8 : Bool
  rxneie : Bool
  txeie : Bool
  rcvEnable : Bool
deriving Repr, DecidableEq

/-- The two `STOP` bits of `USART2->CR2` (`USART_CR2_STOP`; `STOP_1` is
the high bit, set alone for the 2-stop-bits configuration). -/
structure CR2Reg where
  stop0 : Bool
  stop1 : Bool
deriving Repr, DecidableEq

/-- The USART2 registers configured by `USART2_Init`. -/
structure UsartRegs where
  cr1 : CR1Reg
  cr2 : CR2Reg
  brr : Nat
deriving Repr, DecidableEq

/-- Registers at reset: every modelled bit clear, `BRR = 0`. -/
def resetRegs : UsartRegs :=
  { cr1 := { ue := false, te := false, pce := false, ps := false, m0 := false,
             m1 := false, over8 := false, rxneie := false, txeie := false,
             rcvEnable := false },
    cr2 := { stop0 := false, stop1 := false },
    brr := 0 }

/-- The configuration macros of `Src/usart.c` as parameters: baud rate,
parity character (`N`/`E`/`O`), data-bit count, stop-bit count. -/
structure UsartConfig where
  baud : Nat
  parity : Char
  dataBits : Nat
  stopBits : Nat
deriving Repr, DecidableEq

/-- `peripheral_frequency` from `Src/usart.c`. -/
def peripheral_frequency : Nat := 24000000

/-- The configuration macro values of `Src/usart.c`: `USART_BAUD_RATE`
19200, `USART_PARITY` odd, `USART_DATA_and_parity_BITS` 9,
`USART_STOP_BITS` 1. -/
def defaultConfig : UsartConfig :=
  { baud := 19200, parity := 'O', dataBits := 9, stopBits := 1 }

/-- `USART2_Init` from `Src/usart.c`, lines 42-91, restricted to the
USART register writes (the GPIO/RCC/NVIC writes configure pins, clocks
and the interrupt controller and are irrelevant to every claim), and
parameterized on the four configuration macros it branches on.  It
follows the source statement by statement: clear `OVER8`, set `BRR`,
configure parity, data bits and stop bits through the same `if` chains,
then set `TE`, `RE`, `UE` and finally `RXNEIE` and `TXEIE`. -/
def USART2_Init (c : UsartConfig) : UsartRegs :=
  let r := resetRegs
  let r := { r with cr1 := { r.cr1 with over8 := false } }
  let r := { r with brr := peripheral_frequency / c.baud }
  let r :=
    if c.parity = 'N' then
      { r with cr1 := { r.cr1 with pce := false } }
    else
      let r := { r with cr1 := { r.cr1 with pce := true } }
      if c.parity = 'E' then
        { r with cr1 := { r.cr1 with ps := false } }
      else if c.parity = 'O' then
        { r with cr1 := { r.cr1 with ps := true } }
      else
        r
  let r :=
    if c.dataBits = 9 then
      { r with cr1 := { r.cr1 with m0 := true, m1 := false } }
    else
      { r with cr1 := { r.cr1 with m0 := false, m1 := false } }
  let r :=
    if c.stopBits = 2 then
      { r with cr2 := { r.cr2 with stop1 := true } }
    else
      { r with cr2 := { r.cr2 with stop0 := false, stop1 := false } }
  let r := { r with cr1 := { r.cr1 with te := true, rcvEnable := true, ue := true } }
  { r with cr1 := { r.cr1 with rxneie := true, txeie := true } }

/-- Follows the spec's words (§4.2 `init`): validates parity
(None|Even|Odd), data-bit count (8|9) and stop-bit count (1|2), fails
with `ConfigurationError` (modelled `none`) when a parameter is out of
the supported range, and for supported parameters applies them,
producing the configured registers. -/
def init_spec (c : UsartConfig) : Option UsartRegs :=
  if (c.parity = 'N' ∨ c.parity = 'E' ∨ c.parity = 'O') ∧
      (c.dataBits = 8 ∨ c.dataBits = 9) ∧ (c.stopBits = 1 ∨ c.stopBits = 2) then
    some (USART2_Init c)
  else
    none

/-- The driver state the dynamic claims range over: the two circular
buffers and the `TXEIE` bit of `CR1`. -/
structure UartState where
  rx : CBState
  tx : CBState
  txeie : Bool
deriving Repr, DecidableEq

/-- The driver state right after `USART2_Init`: both buffer globals are
zero-initialized with `head = tail = 0`, and the `TXEIE` bit is whatever
`USART2_Init` leaves in `CR1` at the macro configuration. -/
def initialUartState : UartState :=
  { rx := emptyCB, tx := emptyCB, txeie := (USART2_Init defaultConfig).cr1.txeie }

/-- `__io_putchar` from `Src/usart.c`, lines 99-103: enqueues
`(uint8_t)ch` on the tx buffer (ignoring the status code), sets
`USART_CR1_TXEIE`, and returns `ch`. -/
def __io_putchar (s : UartState) (ch : Nat) : UartState × Nat :=
  let r := cbfifo_enqueue s.tx (ch % 256)
  ({ s with tx := r.1, txeie := true }, ch)

/-- `putchar` from `Src/usart.c`, lines 122-124: delegates to
`__io_putchar`. -/
def putchar (s : UartState) (ch : Nat) : UartState × Nat :=
  __io_putchar s ch

/-- The busy-wait loop of `__io_getchar` from `Src/usart.c`, lines
110-114: `while (cbfifo_dequeue(...) == 0);` then return the byte.  The
loop itself never changes an empty buffer (dequeue on empty is the
identity), so it is modelled with explicit fuel: `none` means the loop
is still spinning after `fuel` iterations. -/
def __io_getchar_fuel (s : CBState) : Nat → Option (CBState × Nat)
  | 0 => none
  | fuel + 1 =>
    match cbfifo_dequeue s with
    | (s', some b) => some (s', b)
    | (_, none) => __io_getchar_fuel s fuel

/-- `USART2_IRQHandler` from `Src/usart.c`, lines 142-159.  `rxne` and
`txe` are the `USART_ISR_RXNE` / `USART_ISR_TXE` flags, `rdr` the data
register; `USART2->RDR & 0xFF` becomes `rdr % 256`.  The returned
`Option Nat` is the byte written to `USART2->TDR`, if any. -/
def USART2_IRQHandler (s : UartState) (rxne : Bool) (rdr : Nat) (txe : Bool) :
    UartState × Option Nat :=
  let s1 := if rxne then { s with rx := (cbfifo_enqueue s.rx (rdr % 256)).1 } else s
  if s1.txeie && txe then
    match cbfifo_dequeue s1.tx with
    | (tx', some b) => ({ s1 with tx := tx' }, some b)
    | (tx', none) => ({ s1 with tx := tx', txeie := false }, none)
  else
    (s1, none)

/-! ### Helper lemmas about the circular buffer -/

theorem getD_set_self (a : Nat) : ∀ (l : List Nat) (n : Nat), n < l.length →
    (l.set n a).getD n 0 = a := by
  intro l
  induction l with
  | nil => intro n h; simp at h
  | cons x xs ih =>
    intro n h
    cases n with
    | zero => simp
    | succ n =>
      simp only [List.set, List.getD_cons_succ]
      exact ih n (by simpa using h)

theorem getD_set_of_ne (a : Nat) : ∀ (l : List Nat) (n m : Nat), n ≠ m →
    (l.set n a).getD m 0 = l.getD m 0 := by
  intro l
  induction l with
  | nil => intro n m _; simp
  | cons x xs ih =>
    intro n m hnm
    cases n with
    | zero =>
      cases m with
      | zero => exact absurd rfl hnm
      | succ m => simp [List.set]
    | succ n =>
      cases m with
      | zero => simp [List.set]
      | succ m =>
        simp only [List.set, List.getD_cons_succ]
        exact ih n m (by omega)

theorem cbfifo_enqueue_full (s : CBState) (d : Nat)
    (h : (s.head + 1) % MAX_BUFFER_SIZE = s.tail) :
    cbfifo_enqueue s d = (s, 0) := by
  simp [cbfifo_enqueue, h]

theorem cbfifo_enqueue_not_full (s : CBState) (d : Nat)
    (h : (s.head + 1) % MAX_BUFFER_SIZE ≠ s.tail) :
    cbfifo_enqueue s d =
      ({ s with buf := s.buf.set s.head d, head := (s.head + 1) % MAX_BUFFER_SIZE }, 1) := by
  simp [cbfifo_enqueue, h]

theorem cbfifo_dequeue_empty (s : CBState) (h : s.head = s.tail) :
    cbfifo_dequeue s = (s, none) := by
  simp [cbfifo_dequeue, h]

theorem cbfifo_dequeue_nonempty (s : CBState) (h : s.head ≠ s.tail) :
    cbfifo_dequeue s =
      ({ s with tail := (s.tail + 1) % MAX_BUFFER_SIZE }, some (s.buf.getD s.tail 0)) := by
  simp [cbfifo_dequeue, h]

theorem cbInv_enqueue (s : CBState) (d : Nat) (h : cbInv s) :
    cbInv (cbfifo_enqueue s d).1 := by
  obtain ⟨h1, h2, h3⟩ := h
  by_cases hf : (s.head + 1) % MAX_BUFFER_SIZE = s.tail
  · rw [cbfifo_enqueue_full s d hf]; exact ⟨h1, h2, h3⟩
  · rw [cbfifo_enqueue_not_full s d hf]
    refine ⟨by simpa using h1, Nat.mod_lt _ (by decide), h3⟩

theorem cbInv_dequeue (s : CBState) (h : cbInv s) :
    cbInv (cbfifo_dequeue s).1 := by
  obtain ⟨h1, h2, h3⟩ := h
  by_cases he : s.head = s.tail
  · rw [cbfifo_dequeue_empty s he]; exact ⟨h1, h2, h3⟩
  · rw [cbfifo_dequeue_nonempty s he]
    exact ⟨h1, h2, Nat.mod_lt _ (by decide)⟩

theorem queueFrom_set (buf : List Nat) (d hd : Nat)
    (hbuf : buf.length = MAX_BUFFER_SIZE) (hh : hd < MAX_BUFFER_SIZE) :
    ∀ k t, t < MAX_BUFFER_SIZE → k ≤ MAX_BUFFER_SIZE - 1 →
      (t + k) % MAX_BUFFER_SIZE = hd →
      queueFrom (buf.set hd d) t (k + 1) = queueFrom buf t k ++ [d] := by
  intro k
  induction k with
  | zero =>
    intro t ht _ hth
    have hth' : t = hd := by
      simp only [MAX_BUFFER_SIZE] at ht hth
      omega
    subst hth'
    simp only [queueFrom]
    rw [getD_set_self d buf t (by omega)]
    rfl
  | succ k ih =>
    intro t ht hk hth
    have htne : hd ≠ t := by
      simp only [MAX_BUFFER_SIZE] at ht hth hk hh
      omega
    have ht' : (t + 1) % MAX_BUFFER_SIZE < MAX_BUFFER_SIZE :=
      Nat.mod_lt _ (by decide)
    have hk' : k ≤ MAX_BUFFER_SIZE - 1 := by omega
    have hth' : ((t + 1) % MAX_BUFFER_SIZE + k) % MAX_BUFFER_SIZE = hd := by
      simp only [MAX_BUFFER_SIZE] at hth ⊢
      omega
    conv_lhs => rw [queueFrom]
    conv_rhs => rw [queueFrom]
    rw [getD_set_of_ne d buf hd t htne,
      ih ((t + 1) % MAX_BUFFER_SIZE) ht' hk' hth', List.cons_append]

theorem queueOf_enqueue (s : CBState) (d : Nat) (hInv : cbInv s)
    (hf : (s.head + 1) % MAX_BUFFER_SIZE ≠ s.tail) :
    queueOf (cbfifo_enqueue s d).1 = queueOf s ++ [d] := by
  obtain ⟨h1, h2, h3⟩ := hInv
  rw [cbfifo_enqueue_not_full s d hf]
  show queueFrom (s.buf.set s.head d) s.tail
      (cbCount ⟨s.buf.set s.head d, (s.head + 1) % MAX_BUFFER_SIZE, s.tail⟩) =
    queueFrom s.buf s.tail (cbCount s) ++ [d]
  have hcount : cbCount ⟨s.buf.set s.head d, (s.head + 1) % MAX_BUFFER_SIZE, s.tail⟩ =
      cbCount s + 1 := by
    simp only [cbCount, MAX_BUFFER_SIZE] at h2 h3 hf ⊢
    omega
  rw [hcount]
  refine queueFrom_set s.buf d s.head h1 h2 (cbCount s) s.tail h3 ?_ ?_
  · simp only [cbCount, MAX_BUFFER_SIZE]
    omega
  · simp only [cbCount, MAX_BUFFER_SIZE] at h2 h3 ⊢
    omega

theorem queueOf_dequeue (s : CBState) (hInv : cbInv s) (hne : s.head ≠ s.tail) :
    queueOf s = s.buf.getD s.tail 0 :: queueOf (cbfifo_dequeue s).1 := by
  obtain ⟨h1, h2, h3⟩ := hInv
  rw [cbfifo_dequeue_nonempty s hne]
  show queueFrom s.buf s.tail (cbCount s) =
    s.buf.getD s.tail 0 ::
      queueFrom s.buf ((s.tail + 1) % MAX_BUFFER_SIZE)
        (cbCount ⟨s.buf, s.head, (s.tail + 1) % MAX_BUFFER_SIZE⟩)
  have hcount : cbCount s =
      cbCount ⟨s.buf, s.head, (s.tail + 1) % MAX_BUFFER_SIZE⟩ + 1 := by
    simp only [cbCount, MAX_BUFFER_SIZE] at h2 h3 hne ⊢
    omega
  rw [hcount, queueFrom]

theorem queueOf_empty (s : CBState) (h : s.head = s.tail) : queueOf s = [] := by
  have : cbCount s = 0 := by
    simp only [cbCount, h, MAX_BUFFER_SIZE]
    omega
  rw [queueOf, this, queueFrom]

theorem cbRun_nil (s : CBState) : cbRun s [] = s := rfl

theorem cbRun_cons (s : CBState) (op : CBOp) (ops : List CBOp) :
    cbRun s (op :: ops) = cbRun (cbStep s op) ops := rfl

theorem cbRun_inv (ops : List CBOp) : ∀ s, cbInv s → cbInv (cbRun s ops) := by
  induction ops with
  | nil => intro s h; exact h
  | cons op ops ih =>
    intro s h
    rw [cbRun_cons]
    cases op with
    | enq d => exact ih _ (cbInv_enqueue s d h)
    | deq => exact ih _ (cbInv_dequeue s h)

theorem cbTrace_nil (s : CBState) : cbTrace [] s = (s, [], []) := rfl

theorem cbTrace_enq (d : Nat) (ops : List CBOp) (s : CBState) :
    cbTrace (CBOp.enq d :: ops) s =
      ((cbTrace ops (cbfifo_enqueue s d).1).1,
        if (cbfifo_enqueue s d).2 = 1 then
          d :: (cbTrace ops (cbfifo_enqueue s d).1).2.1
        else
          (cbTrace ops (cbfifo_enqueue s d).1).2.1,
        (cbTrace ops (cbfifo_enqueue s d).1).2.2) := rfl

theorem cbTrace_deq (ops : List CBOp) (s : CBState) :
    cbTrace (CBOp.deq :: ops) s =
      ((cbTrace ops (cbfifo_dequeue s).1).1,
        (cbTrace ops (cbfifo_dequeue s).1).2.1,
        match (cbfifo_dequeue s).2 with
        | some b => b :: (cbTrace ops (cbfifo_dequeue s).1).2.2
        | none => (cbTrace ops (cbfifo_dequeue s).1).2.2) := rfl

/-- FIFO simulation: along any operation sequence, the initial queue
contents followed by the accepted bytes equal the dequeued bytes
followed by the final queue contents. -/
theorem cbTrace_fifo (ops : List CBOp) : ∀ s, cbInv s →
    queueOf s ++ (cbTrace ops s).2.1 =
      (cbTrace ops s).2.2 ++ queueOf (cbTrace ops s).1 := by
  induction ops with
  | nil =>
    intro s _
    rw [cbTrace_nil]
    simp
  | cons op ops ih =>
    intro s h
    cases op with
    | enq d =>
      by_cases hf : (s.head + 1) % MAX_BUFFER_SIZE = s.tail
      · rw [cbTrace_enq, cbfifo_enqueue_full s d hf]
        simpa using ih s h
      · have hinv' : cbInv (cbfifo_enqueue s d).1 := cbInv_enqueue s d h
        have hq : queueOf (cbfifo_enqueue s d).1 = queueOf s ++ [d] :=
          queueOf_enqueue s d h hf
        have hret : (cbfifo_enqueue s d).2 = 1 := by
          rw [cbfifo_enqueue_not_full s d hf]
        rw [cbTrace_enq, hret]
        simp only [if_pos rfl]
        calc queueOf s ++ d :: (cbTrace ops (cbfifo_enqueue s d).1).2.1
            = (queueOf s ++ [d]) ++ (cbTrace ops (cbfifo_enqueue s d).1).2.1 := by
              simp
          _ = queueOf (cbfifo_enqueue s d).1 ++
                (cbTrace ops (cbfifo_enqueue s d).1).2.1 := by rw [hq]
          _ = (cbTrace ops (cbfifo_enqueue s d).1).2.2 ++
                queueOf (cbTrace ops (cbfifo_enqueue s d).1).1 :=
              ih _ hinv'
    | deq =>
      by_cases he : s.head = s.tail
      · rw [cbTrace_deq, cbfifo_dequeue_empty s he]
        simpa using ih s h
      · have hinv' : cbInv (cbfifo_dequeue s).1 := cbInv_dequeue s h
        have hq : queueOf s = s.buf.getD s.tail 0 :: queueOf (cbfifo_dequeue s).1 :=
          queueOf_dequeue s h he
        have hret : (cbfifo_dequeue s).2 = some (s.buf.getD s.tail 0) := by
          rw [cbfifo_dequeue_nonempty s he]
        rw [cbTrace_deq, hret]
        simp only []
        calc queueOf s ++ (cbTrace ops (cbfifo_dequeue s).1).2.1
            = s.buf.getD s.tail 0 ::
                (queueOf (cbfifo_dequeue s).1 ++
                  (cbTrace ops (cbfifo_dequeue s).1).2.1) := by
              rw [hq]; simp
          _ = s.buf.getD s.tail 0 ::
                ((cbTrace ops (cbfifo_dequeue s).1).2.2 ++
                  queueOf (cbTrace ops (cbfifo_dequeue s).1).1) := by
              rw [ih _ hinv']
          _ = (s.buf.getD s.tail 0 :: (cbTrace ops (cbfifo_dequeue s).1).2.2) ++
                queueOf (cbTrace ops (cbfifo_dequeue s).1).1 := by simp

/-- The rx buffer after the interrupt handler: the RXNE branch enqueues
the received byte, the TXE branch never touches rx. -/
theorem USART2_IRQHandler_rx (s : UartState) (rxne : Bool) (rdr : Nat) (txe : Bool) :
    (USART2_IRQHandler s rxne rdr txe).1.rx =
      if rxne then (cbfifo_enqueue s.rx (rdr % 256)).1 else s.rx := by
  cases rxne <;>
    simp only [USART2_IRQHandler, Bool.false_eq_true, if_false, if_true] <;>
    split <;>
    first
      | rfl
      | (split <;> rfl)

/-- The `TXEIE` bit after the interrupt handler, in closed form: it stays
clear if it was clear, and is cleared exactly by a drain attempt
(`TXEIE` set and `TXE` pending) that finds the tx buffer empty. -/
theorem USART2_IRQHandler_txeie (s : UartState) (rxne : Bool) (rdr : Nat) (txe : Bool) :
    (USART2_IRQHandler s rxne rdr txe).1.txeie =
      (s.txeie && !(txe && decide (s.tx.head = s.tx.tail))) := by
  cases rxne <;> cases txe <;> cases hst : s.txeie <;>
    by_cases he : s.tx.head = s.tx.tail <;>
      simp [USART2_IRQHandler, cbfifo_dequeue, he, hst]

/-! ### The claims -/

/-- C1: for every sequence of `cbfifo_enqueue` / `cbfifo_dequeue` calls
on one buffer starting from an empty state (`head = tail`), the accepted
bytes (enqueues returning 1) equal the bytes returned by successful
dequeues followed by the bytes still stored in the buffer — in
particular the dequeued sequence is, in order, an initial segment of the
accepted sequence, and bytes whose enqueue returned 0 never appear.
Interleavings respecting the single-writer-per-index discipline are
modelled as arbitrary sequences of whole operations. -/
theorem C1_fifo_order (ops : List CBOp) (s : CBState)
    (hInv : cbInv s) (hempty : s.head = s.tail) :
    (cbTrace ops s).2.1 =
      (cbTrace ops s).2.2 ++ queueOf (cbTrace ops s).1 := by
  have h := cbTrace_fifo ops s hInv
  rwa [queueOf_empty s hempty, List.nil_append] at h

/-- Witness for C1 at a concrete run: enqueue 65, enqueue 66, dequeue. -/
theorem C1_fifo_order_witness :
    cbInv emptyCB ∧ emptyCB.head = emptyCB.tail ∧
      (cbTrace [CBOp.enq 65, CBOp.enq 66, CBOp.deq] emptyCB).2.1 =
        (cbTrace [CBOp.enq 65, CBOp.enq 66, CBOp.deq] emptyCB).2.2 ++
          queueOf (cbTrace [CBOp.enq 65, CBOp.enq 66, CBOp.deq] emptyCB).1 :=
  ⟨by decide, rfl, C1_fifo_order [CBOp.enq 65, CBOp.enq 66, CBOp.deq] emptyCB (by decide) rfl⟩

/-- C2 counterexample: the claim says the transmit-interrupt-enable state
is initially Disabled until the first write, but `USART2_Init` itself
sets `USART_CR1_TXEIE` (line 90 of `Src/usart.c`), so right after init —
before any write — the state is Enabled. -/
theorem C2_counterexample_init_enables_txe :
    (USART2_Init defaultConfig).cr1.txeie = true ∧ initialUartState.txeie = true := by
  decide

/-- C2 amended: the machine has states Disabled/Enabled (`TXEIE` clear /
set); `USART2_Init` leaves it Enabled; every `__io_putchar` call
(successful or not) moves it to Enabled; the interrupt handler moves it
to Disabled exactly when a drain attempt (`TXEIE` set and `TXE` pending)
finds the tx buffer empty, and otherwise leaves it unchanged. -/
theorem C2_amended_tx_interrupt_machine (s : UartState) (ch : Nat)
    (rxne txe : Bool) (rdr : Nat) :
    initialUartState.txeie = true ∧
    (__io_putchar s ch).1.txeie = true ∧
    (USART2_IRQHandler s rxne rdr txe).1.txeie =
      (s.txeie && !(txe && decide (s.tx.head = s.tx.tail))) :=
  ⟨by decide, rfl, USART2_IRQHandler_txeie s rxne rdr txe⟩

/-- C3 counterexample: with the tx buffer full, `cbfifo_enqueue` reports
failure (0), yet `__io_putchar` still returns the character 65 — not the
enqueue result — while the byte was silently dropped (tx unchanged).
The claim that `write_byte` "returns the enqueue result: it returns
false exactly when the tx buffer was full" is therefore false. -/
theorem C3_counterexample_return_ignores_full :
    (cbfifo_enqueue fullCB 65).2 = 0 ∧
    (__io_putchar ⟨emptyCB, fullCB, false⟩ 65).2 = 65 ∧
    (__io_putchar ⟨emptyCB, fullCB, false⟩ 65).1.tx = fullCB := by
  decide

/-- C3 amended: `__io_putchar` (and `putchar`, which delegates to it)
attempts `tx.enqueue((uint8_t)ch)` and unconditionally enables the
transmit interrupt, but ignores the enqueue result and always returns
`ch`; on a full tx buffer no byte is accepted and nothing will be
transmitted, yet the caller cannot observe the failure. -/
theorem C3_amended_putchar (s : UartState) (ch : Nat) :
    (__io_putchar s ch).2 = ch ∧
    putchar s ch = __io_putchar s ch ∧
    (__io_putchar s ch).1.txeie = true ∧
    (__io_putchar s ch).1.rx = s.rx ∧
    (__io_putchar s ch).1.tx = (cbfifo_enqueue s.tx (ch % 256)).1 :=
  ⟨rfl, rfl, rfl, rfl, rfl⟩

/-- C4: on a full buffer (`(head + 1) % MAX_BUFFER_SIZE = tail`),
`cbfifo_enqueue` returns 0 and leaves contents, head and tail unchanged. -/
theorem C4_enqueue_full_unchanged (s : CBState) (d : Nat)
    (h : (s.head + 1) % MAX_BUFFER_SIZE = s.tail) :
    cbfifo_enqueue s d = (s, 0) :=
  cbfifo_enqueue_full s d h

/-- Witness for C4 at the concrete full buffer. -/
theorem C4_enqueue_full_unchanged_witness :
    (fullCB.head + 1) % MAX_BUFFER_SIZE = fullCB.tail ∧
      cbfifo_enqueue fullCB 65 = (fullCB, 0) :=
  ⟨by decide, C4_enqueue_full_unchanged fullCB 65 (by decide)⟩

/-- C5: `cbfifo_dequeue` on an empty buffer (`head = tail`) returns the
empty result (C return value 0, modelled `none`) with the state
unchanged; on a non-empty buffer it returns the byte stored at `tail`
and advances `tail` by one modulo `MAX_BUFFER_SIZE`. -/
theorem C5_dequeue_cases (s : CBState) :
    (s.head = s.tail → cbfifo_dequeue s = (s, none)) ∧
    (s.head ≠ s.tail →
      cbfifo_dequeue s =
        ({ s with tail := (s.tail + 1) % MAX_BUFFER_SIZE },
          some (s.buf.getD s.tail 0))) :=
  ⟨cbfifo_dequeue_empty s, cbfifo_dequeue_nonempty s⟩

/-- Witness for C5: the empty case at `emptyCB`, the non-empty case at
`oneCB`. -/
theorem C5_dequeue_cases_witness :
    (emptyCB.head = emptyCB.tail ∧ cbfifo_dequeue emptyCB = (emptyCB, none)) ∧
    (oneCB.head ≠ oneCB.tail ∧
      cbfifo_dequeue oneCB =
        ({ oneCB with tail := (oneCB.tail + 1) % MAX_BUFFER_SIZE },
          some (oneCB.buf.getD oneCB.tail 0))) :=
  ⟨⟨rfl, (C5_dequeue_cases emptyCB).1 rfl⟩,
    ⟨by decide, (C5_dequeue_cases oneCB).2 (by decide)⟩⟩

/-- C6: starting from the empty buffer of capacity `MAX_BUFFER_SIZE`
(128), the first 127 enqueues succeed and the 128th fails; after one
dequeue from the full state exactly one more enqueue succeeds (the next
one fails again). -/
theorem C6_capacity_boundary :
    (enqSeq emptyCB 1 128).2 = List.replicate 127 1 ++ [0] ∧
    (cbfifo_dequeue (enqSeq emptyCB 1 128).1).2 = some 1 ∧
    (cbfifo_enqueue (cbfifo_dequeue (enqSeq emptyCB 1 128).1).1 3).2 = 1 ∧
    (cbfifo_enqueue
      (cbfifo_enqueue (cbfifo_dequeue (enqSeq emptyCB 1 128).1).1 3).1 4).2 = 0 := by
  decide

/-- C7: if the rx buffer is full when the RXNE branch of
`USART2_IRQHandler` runs, the received byte is dropped and the rx buffer
— contents, order, head and tail — is unchanged by the invocation. -/
theorem C7_rx_overflow_drops (s : UartState) (rdr : Nat) (txe : Bool)
    (h : (s.rx.head + 1) % MAX_BUFFER_SIZE = s.rx.tail) :
    (USART2_IRQHandler s true rdr txe).1.rx = s.rx := by
  rw [USART2_IRQHandler_rx, if_pos rfl, cbfifo_enqueue_full s.rx (rdr % 256) h]

/-- Witness for C7 with a full rx buffer and byte 66 arriving. -/
theorem C7_rx_overflow_drops_witness :
    ((⟨fullCB, emptyCB, true⟩ : UartState).rx.head + 1) % MAX_BUFFER_SIZE =
        (⟨fullCB, emptyCB, true⟩ : UartState).rx.tail ∧
    (USART2_IRQHandler ⟨fullCB, emptyCB, true⟩ true 66 false).1.rx = fullCB :=
  ⟨by decide, C7_rx_overflow_drops ⟨fullCB, emptyCB, true⟩ 66 false (by decide)⟩

/-- C8: the busy-wait loop of `__io_getchar` dequeues until success:
whenever the rx buffer is non-empty at the call it returns immediately
(first iteration, any fuel) with the byte at `tail`, and while the
buffer remains empty it never returns (no fuel suffices). -/
theorem C8_read_byte_blocking (s : CBState) (fuel : Nat) :
    (s.head ≠ s.tail →
      __io_getchar_fuel s (fuel + 1) =
        some ({ s with tail := (s.tail + 1) % MAX_BUFFER_SIZE },
          s.buf.getD s.tail 0)) ∧
    (s.head = s.tail → __io_getchar_fuel s fuel = none) := by
  constructor
  · intro hne
    simp only [__io_getchar_fuel, cbfifo_dequeue_nonempty s hne]
  · intro he
    induction fuel with
    | zero => rfl
    | succ n ihn =>
      simp only [__io_getchar_fuel, cbfifo_dequeue_empty s he]
      exact ihn

/-- Witness for C8: non-empty case at `oneCB`, empty case at `emptyCB`. -/
theorem C8_read_byte_blocking_witness :
    (oneCB.head ≠ oneCB.tail ∧
      __io_getchar_fuel oneCB (0 + 1) =
        some ({ oneCB with tail := (oneCB.tail + 1) % MAX_BUFFER_SIZE },
          oneCB.buf.getD oneCB.tail 0)) ∧
    (emptyCB.head = emptyCB.tail ∧ __io_getchar_fuel emptyCB 5 = none) :=
  ⟨⟨by decide, (C8_read_byte_blocking oneCB 0).1 (by decide)⟩,
    ⟨rfl, (C8_read_byte_blocking emptyCB 5).2 rfl⟩⟩

/-- C9 counterexample: the claim says `init` fails with
`ConfigurationError` whenever a parameter is out of the supported range.
At the unsupported data-bit count 7, the spec-worded validating init
(`init_spec`) indeed demands failure, but `USART2_Init` does not fail:
it produces exactly the same applied register configuration as for 8
data bits. -/
theorem C9_counterexample_no_validation :
    init_spec ⟨19200, 'O', 7, 1⟩ = none ∧
    USART2_Init ⟨19200, 'O', 7, 1⟩ = USART2_Init ⟨19200, 'O', 8, 1⟩ := by
  decide

/-- C9 amended: `USART2_Init` performs no validation and always applies a
configuration: any data-bit count other than 9 is configured as 8 data
bits, any stop-bit count other than 2 as 1 stop bit, parity is disabled
only for `N` and the odd-parity select bit is set only for `O`; the
transmitter, receiver and USART are always enabled. -/
theorem C9_amended_init_total (c : UsartConfig) :
    USART2_Init c =
      USART2_Init ⟨c.baud, c.parity, if c.dataBits = 9 then 9 else 8,
        if c.stopBits = 2 then 2 else 1⟩ ∧
    (USART2_Init c).cr1.pce = decide (c.parity ≠ 'N') ∧
    (USART2_Init c).cr1.ps = decide (c.parity = 'O') ∧
    (USART2_Init c).cr1.m0 = decide (c.dataBits = 9) ∧
    (USART2_Init c).cr1.m1 = false ∧
    (USART2_Init c).cr2.stop1 = decide (c.stopBits = 2) ∧
    (USART2_Init c).cr2.stop0 = false ∧
    (USART2_Init c).cr1.ue = true ∧
    (USART2_Init c).cr1.te = true ∧
    (USART2_Init c).cr1.rcvEnable = true ∧
    (USART2_Init c).cr1.rxneie = true ∧
    (USART2_Init c).cr1.txeie = true := by
  by_cases h1 : c.parity = 'N' <;> by_cases h2 : c.parity = 'E' <;>
    by_cases h3 : c.parity = 'O' <;> by_cases h4 : c.dataBits = 9 <;>
      by_cases h5 : c.stopBits = 2 <;>
        simp [USART2_Init, resetRegs, h1, h2, h3, h4, h5]

/-- C10: starting from `head = tail = 0` and the zeroed backing array,
any sequence of enqueues and dequeues keeps both indices inside
`[0, MAX_BUFFER_SIZE)`, so the single array read (`buffer[*tail]`) and
write (`buffer[*head]`) each operation performs are in bounds. -/
theorem C10_index_bounds (ops : List CBOp) :
    (cbRun emptyCB ops).buf.length = MAX_BUFFER_SIZE ∧
    (cbRun emptyCB ops).head < (cbRun emptyCB ops).buf.length ∧
    (cbRun emptyCB ops).tail < (cbRun emptyCB ops).buf.length := by
  obtain ⟨h1, h2, h3⟩ := cbRun_inv ops emptyCB (by decide)
  exact ⟨h1, by rw [h1]; exact h2, by rw [h1]; exact h3⟩
